/-
Verification of the sync & local-cache reconciliation pipeline of the
toggl-api dashboard (Python sources under src/): the CSV year-export
parser with its surrogate-identifier derivation (src/toggl_client.py),
the SQLite-backed cache store (src/data_store.py), the natural-language
query router (src/queries.py), the sync orchestrator's progress
reporting (src/sync.py), and the rate limiter / HTTP retry loop
(src/toggl_client.py).

Conventions of the shallow embedding:
* Python strings are Lean `String` / `List Char`; matching helpers work
  on `List Char`.  `str.lower` / character classes are modelled for
  ASCII (all inputs exercised by the claims are ASCII).
* Python ints are `Int` / `Nat`; SQLite REAL values that the source
  only ever sums and compares are modelled exactly as `ℚ`.
* The SQLite table `time_entries` is a `List Row` whose primary-key
  behaviour is given by `insertOrReplace` (delete the row with the
  same id, append the new row).
* Python exceptions that escape a modelled function are `Option`
  results (`none` = the call raised).
-/
import Mathlib

namespace TogglApi

/-! ### Character classes and list-level string helpers

Python `\s` (ASCII part), `\w` (ASCII part), `str.lower`, `str.strip`.
-/

def isWsChar (c : Char) : Bool :=
  c = ' ' || c = '\t' || c = '\n' || c = '\r' || c = '\x0b' || c = '\x0c'

/-- ASCII fragment of Python's `\w` class (`[A-Za-z0-9_]`). -/
def isWordChar (c : Char) : Bool :=
  c.isAlphanum || c = '_'

def lowerChars (cs : List Char) : List Char :=
  cs.map Char.toLower

/-- `str.strip()` (whitespace from both ends). -/
def stripChars (cs : List Char) : List Char :=
  ((cs.dropWhile isWsChar).reverse.dropWhile isWsChar).reverse

/-- `str.strip(chars)`: drop any of the given characters from both ends. -/
def stripTheseChars (bad : List Char) (cs : List Char) : List Char :=
  ((cs.dropWhile (bad.contains ·)).reverse.dropWhile (bad.contains ·)).reverse

/-- Lexicographic order on character lists by code point: SQLite's
BINARY collation for the ASCII text this store holds (Lean's own
`String` order agrees but is not kernel-computable). -/
def charListLe : List Char → List Char → Bool
  | [], _ => true
  | _ :: _, [] => false
  | a :: as, b :: bs =>
      if a.toNat < b.toNat then true
      else if b.toNat < a.toNat then false
      else charListLe as bs

/-- `a <= b` as SQLite compares TEXT values. -/
def strLe (a b : String) : Bool :=
  charListLe a.data b.data

/-- Does `hay` contain `needle` as a contiguous sublist (`needle in hay`)? -/
def containsSub (needle : List Char) : List Char → Bool
  | [] => needle.isEmpty
  | c :: cs => needle.isPrefixOf (c :: cs) || containsSub needle cs

/-- Case-insensitive containment, as used by SQLite `LIKE '%kw%'`
(ASCII case folding). -/
def containsSubCI (needle hay : List Char) : Bool :=
  containsSub (lowerChars needle) (lowerChars hay)

/-- `str.split(sep)` for a single-character separator; keeps empty pieces,
like Python's `split` with an explicit separator. -/
def splitOnCharGo (sep : Char) (acc : List Char) : List Char → List (List Char)
  | [] => [acc.reverse]
  | c :: cs =>
      if c = sep then acc.reverse :: splitOnCharGo sep [] cs
      else splitOnCharGo sep (c :: acc) cs

def splitOnChar (sep : Char) (cs : List Char) : List (List Char) :=
  splitOnCharGo sep [] cs

def digitVal (c : Char) : Nat := c.toNat - 48

def readNatDigits (cs : List Char) : Nat :=
  cs.foldl (fun a c => 10 * a + digitVal c) 0

/-- Python `int(s)` restricted to an optional sign followed by decimal
digits (the source never feeds it whitespace or underscores). `none`
models the `ValueError`. -/
def pyInt : List Char → Option Int
  | [] => none
  | '-' :: cs => if cs ≠ [] && cs.all Char.isDigit then some (-(readNatDigits cs : Int)) else none
  | '+' :: cs => if cs ≠ [] && cs.all Char.isDigit then some ((readNatDigits cs : Int)) else none
  | cs => if cs.all Char.isDigit then some ((readNatDigits cs : Int)) else none

def pyIntStr (s : String) : Option Int := pyInt s.data

/-! ### SHA-256 (hashlib.sha256), on `Nat` with explicit mod 2^32

`fetch_year_entries` derives the surrogate entry id as
`int(hashlib.sha256(id_seed.encode()).hexdigest()[:15], 16)`.
-/

def w32 (x : Nat) : Nat := x % 4294967296

def rotr32 (n x : Nat) : Nat := w32 ((x >>> n) ||| (x <<< (32 - n)))

def shaCh (e f g : Nat) : Nat := (e &&& f) ^^^ ((e ^^^ 4294967295) &&& g)

def shaMaj (a b c : Nat) : Nat := (a &&& b) ^^^ (a &&& c) ^^^ (b &&& c)

def bigSigma0 (x : Nat) : Nat := rotr32 2 x ^^^ rotr32 13 x ^^^ rotr32 22 x

def bigSigma1 (x : Nat) : Nat := rotr32 6 x ^^^ rotr32 11 x ^^^ rotr32 25 x

def smallSigma0 (x : Nat) : Nat := rotr32 7 x ^^^ rotr32 18 x ^^^ (x >>> 3)

def smallSigma1 (x : Nat) : Nat := rotr32 17 x ^^^ rotr32 19 x ^^^ (x >>> 10)

/-- The 64 round constants of FIPS 180-4, in decimal. -/
def sha256K : List Nat :=
  [1116352408, 1899447441, 3049323471, 3921009573, 961987163, 1508970993,
   2453635748, 2870763221, 3624381080, 310598401, 607225278, 1426881987,
   1925078388, 2162078206, 2614888103, 3248222580, 3835390401, 4022224774,
   264347078, 604807628, 770255983, 1249150122, 1555081692, 1996064986,
   2554220882, 2821834349, 2952996808, 3210313671, 3336571891, 3584528711,
   113926993, 338241895, 666307205, 773529912, 1294757372, 1396182291,
   1695183700, 1986661051, 2177026350, 2456956037, 2730485921, 2820302411,
   3259730800, 3345764771, 3516065817, 3600352804, 4094571909, 275423344,
   430227734, 506948616, 659060556, 883997877, 958139571, 1322822218,
   1537002063, 1747873779, 1955562222, 2024104815, 2227730452, 2361852424,
   2428436474, 2756734187, 3204031479, 3329325298]

/-- The eight initial hash values of FIPS 180-4, in decimal. -/
def sha256InitH : List Nat :=
  [1779033703, 3144134277, 1013904242, 2773480762, 1359893119, 2600822924,
   528734635, 1541459225]

def be64 (n : Nat) : List Nat :=
  [(n >>> 56) % 256, (n >>> 48) % 256, (n >>> 40) % 256, (n >>> 32) % 256,
   (n >>> 24) % 256, (n >>> 16) % 256, (n >>> 8) % 256, n % 256]

/-- FIPS 180-4 padding: append 0x80, zeros to 56 mod 64, then the
bit length as 8 big-endian bytes. -/
def shaPad (m : List Nat) : List Nat :=
  m ++ [0x80] ++ List.replicate ((119 - (m.length % 64)) % 64) 0 ++ be64 (8 * m.length)

def chunks64Go : Nat → List Nat → List (List Nat)
  | 0, _ => []
  | _, [] => []
  | fuel + 1, l => l.take 64 :: chunks64Go fuel (l.drop 64)

def chunks64 (l : List Nat) : List (List Nat) := chunks64Go l.length l

def bytesToWords : List Nat → List Nat
  | b0 :: b1 :: b2 :: b3 :: rest => (((b0 * 256 + b1) * 256 + b2) * 256 + b3) :: bytesToWords rest
  | _ => []

def extendSchedule : List Nat → Nat → List Nat
  | ws, 0 => ws
  | ws, k + 1 =>
      let nw := w32 (smallSigma1 (ws.getD (ws.length - 2) 0) + ws.getD (ws.length - 7) 0 +
        smallSigma0 (ws.getD (ws.length - 15) 0) + ws.getD (ws.length - 16) 0)
      extendSchedule (ws ++ [nw]) k

def compressStep (st : List Nat) (kw : Nat × Nat) : List Nat :=
  match st with
  | [a, b, c, d, e, f, g, h] =>
      let t1 := w32 (h + bigSigma1 e + shaCh e f g + kw.1 + kw.2)
      let t2 := w32 (bigSigma0 a + shaMaj a b c)
      [w32 (t1 + t2), a, b, c, w32 (d + t1), e, f, g]
  | st => st

def processBlock (hs : List Nat) (block : List Nat) : List Nat :=
  let ws := extendSchedule (bytesToWords block) 48
  let st := (sha256K.zip ws).foldl compressStep hs
  (hs.zip st).map (fun p => w32 (p.1 + p.2))

/-- SHA-256 digest of a byte list, as 32 bytes. -/
def sha256 (msg : List Nat) : List Nat :=
  ((chunks64 (shaPad msg)).foldl processBlock sha256InitH).flatMap
    (fun w => [(w >>> 24) % 256, (w >>> 16) % 256, (w >>> 8) % 256, w % 256])

def hexDigitChar (n : Nat) : Char :=
  "0123456789abcdef".data.getD n '0'

def bytesToHex (bs : List Nat) : List Char :=
  bs.flatMap (fun b => [hexDigitChar (b / 16), hexDigitChar (b % 16)])

def hexCharVal (c : Char) : Nat :=
  if c.isDigit then c.toNat - 48 else c.toNat - 87

def hexToNat (cs : List Char) : Nat :=
  cs.foldl (fun a c => 16 * a + hexCharVal c) 0

/-- UTF-8 encoding of one character (`str.encode()`). -/
def charUtf8 (c : Char) : List Nat :=
  let n := c.toNat
  if n < 0x80 then [n]
  else if n < 0x800 then [0xC0 ||| (n >>> 6), 0x80 ||| (n &&& 0x3F)]
  else if n < 0x10000 then
    [0xE0 ||| (n >>> 12), 0x80 ||| ((n >>> 6) &&& 0x3F), 0x80 ||| (n &&& 0x3F)]
  else
    [0xF0 ||| (n >>> 18), 0x80 ||| ((n >>> 12) &&& 0x3F), 0x80 ||| ((n >>> 6) &&& 0x3F),
     0x80 ||| (n &&& 0x3F)]

def utf8Bytes (s : String) : List Nat := s.data.flatMap charUtf8

/-! ### Year export fetch: CSV row parsing (`TogglClient.fetch_year_entries`)

One row of `csv.DictReader` over the Toggl detailed-report CSV.  The
model keeps the columns the loop body reads; a column missing from the
CSV is represented by its `row.get` default (`"0:00:00"` for Duration,
`"00:00:00"` for the time fields, `""` elsewhere).
-/

structure CsvRow where
  startDate : String
  startTime : String
  endDate : String
  endTime : String
  description : String
  project : String
  duration : String
  tagsField : String
  billable : String
deriving DecidableEq

/-- Parse `"H:MM:SS"` to seconds; any `ValueError`/`IndexError` leaves
the default 0 (extra `:`-separated parts beyond the third are ignored,
as in the source, which only indexes `parts[0..2]`). -/
def parseDurationHMS (s : String) : Int :=
  match splitOnChar ':' s.data with
  | p0 :: p1 :: p2 :: _ =>
      match pyInt p0, pyInt p1, pyInt p2 with
      | some a, some b, some c => a * 3600 + b * 60 + c
      | _, _, _ => 0
  | _ => 0

/-- `f"{start_date}T{start_time}" if start_date else ""`. -/
def csvStartIso (r : CsvRow) : String :=
  if r.startDate ≠ "" then r.startDate ++ "T" ++ r.startTime else ""

def csvStopIso (r : CsvRow) : String :=
  if r.endDate ≠ "" then r.endDate ++ "T" ++ r.endTime else ""

/-- `[t.strip() for t in tags_str.split(",") if t.strip()] if tags_str else []`. -/
def csvTags (r : CsvRow) : List String :=
  if r.tagsField ≠ "" then
    ((splitOnChar ',' r.tagsField.data).map stripChars).filterMap
      (fun t => if t ≠ [] then some (String.mk t) else none)
  else []

/-- The seed string hashed for the surrogate id:
`f"{start_iso}|{stop_iso}|{description}|{project}|{duration_sec}"`. -/
def idSeed (startIso stopIso description project : String) (durationSec : Int) : String :=
  startIso ++ "|" ++ stopIso ++ "|" ++ description ++ "|" ++ project ++ "|" ++ toString durationSec

/-- `int(hashlib.sha256(id_seed.encode()).hexdigest()[:15], 16)`. -/
def synthId (startIso stopIso description project : String) (durationSec : Int) : Nat :=
  hexToNat ((bytesToHex (sha256 (utf8Bytes
    (idSeed startIso stopIso description project durationSec)))).take 15)

/-- A normalized entry record, i.e. the flat dict handed to
`upsert_time_entries` (all producers in the source populate every key,
so the fields are total; `id` is the vendor id or the surrogate id;
the `at` key is `atField` because `at` is a Lean keyword). -/
structure Entry where
  id : Int
  description : String
  start : String
  stop : String
  duration : Int
  project_id : Option Int
  project_name : String
  workspace_id : Option Int
  tags : List String
  tag_ids : List Int
  billable : Bool
  atField : String
deriving DecidableEq

/-- Loop body of `fetch_year_entries`: one CSV row to one entry dict. -/
def entryOfRow (r : CsvRow) : Entry :=
  let durationSec := parseDurationHMS r.duration
  { id := (synthId (csvStartIso r) (csvStopIso r) r.description r.project durationSec : Int)
    description := r.description
    start := csvStartIso r
    stop := csvStopIso r
    duration := durationSec
    project_id := none
    project_name := r.project
    workspace_id := none
    tags := csvTags r
    tag_ids := []
    billable := r.billable = "Yes"
    atField := "" }

/-! ### Calendar helpers for the derived columns

`upsert_time_entries` computes `start_date`, year/month/day and the ISO
week from `datetime.fromisoformat`; these are the standard proleptic
Gregorian calendar functions it relies on.
-/

def isLeapYear (y : Nat) : Bool :=
  (y % 4 = 0 && y % 100 ≠ 0) || y % 400 = 0

def daysInMonth (y m : Nat) : Nat :=
  if m = 2 then (if isLeapYear y then 29 else 28)
  else if m = 4 || m = 6 || m = 9 || m = 11 then 30
  else 31

def dayOfYear (y m d : Nat) : Nat :=
  ((List.range (m - 1)).map (fun i => daysInMonth y (i + 1))).sum + d

/-- ISO weekday, 1 = Monday .. 7 = Sunday (Sakamoto's algorithm). -/
def isoWeekday (y m d : Nat) : Nat :=
  let t := [0, 3, 2, 5, 0, 3, 5, 1, 4, 6, 2, 4]
  let y' := if m < 3 then y - 1 else y
  let dow := (y' + y' / 4 - y' / 100 + y' / 400 + t.getD (m - 1) 0 + d) % 7
  (dow + 6) % 7 + 1

def isoWeeksInYear (y : Nat) : Nat :=
  if isoWeekday y 1 1 = 4 || (isLeapYear y && isoWeekday y 1 1 = 3) then 53 else 52

/-- `datetime.isocalendar()[1]`. -/
def isoWeek (y m d : Nat) : Nat :=
  let w := (dayOfYear y m d + 10 - isoWeekday y m d) / 7
  if w = 0 then isoWeeksInYear (y - 1)
  else if isoWeeksInYear y < w then 1
  else w

def padZeros (width n : Nat) : String :=
  let s := toString n
  String.mk (List.replicate (width - s.length) '0') ++ s

/-- `dt.strftime("%Y-%m-%d")`. -/
def strftimeDate (y m d : Nat) : String :=
  padZeros 4 y ++ "-" ++ padZeros 2 m ++ "-" ++ padZeros 2 d

/-- `start_str.replace("Z", "+00:00")`. -/
def replaceZ (s : String) : String :=
  String.mk (s.data.flatMap fun c => if c = 'Z' then '+' :: "00:00".data else [c])

/-- Trailing UTC-offset suffix (`±HH:MM`) or end of string. -/
def parseIsoOffset : List Char → Bool
  | [] => true
  | s :: o1 :: o2 :: ':' :: o3 :: o4 :: [] =>
      (s = '+' || s = '-') && [o1, o2, o3, o4].all Char.isDigit &&
        readNatDigits [o1, o2] < 24 && readNatDigits [o3, o4] < 60
  | _ => false

/-- Optional fractional seconds (1-6 digits) then optional offset. -/
def parseIsoFrac : List Char → Bool
  | '.' :: rest =>
      let ds := rest.takeWhile Char.isDigit
      decide (1 ≤ ds.length) && decide (ds.length ≤ 6) && parseIsoOffset (rest.drop ds.length)
  | cs => parseIsoOffset cs

/-- Time-of-day part: `HH`, `HH:MM` or `HH:MM:SS`, with optional
fraction and offset. -/
def parseIsoTime : List Char → Bool
  | h1 :: h2 :: rest =>
      [h1, h2].all Char.isDigit && readNatDigits [h1, h2] < 24 &&
        (match rest with
         | ':' :: m1 :: m2 :: rest2 =>
             [m1, m2].all Char.isDigit && readNatDigits [m1, m2] < 60 &&
               (match rest2 with
                | ':' :: s1 :: s2 :: rest3 =>
                    [s1, s2].all Char.isDigit && readNatDigits [s1, s2] < 60 && parseIsoFrac rest3
                | rest2 => parseIsoOffset rest2)
         | rest => parseIsoOffset rest)
  | _ => false

/-- `datetime.fromisoformat`, restricted to the shapes the pipeline
produces: `YYYY-MM-DD`, optionally followed by a one-character
separator and a valid time-of-day.  Returns the calendar date;
`none` models the `ValueError` that sends `upsert_time_entries`
into its string-slicing fallback. -/
def parseIso : List Char → Option (Nat × Nat × Nat)
  | y1 :: y2 :: y3 :: y4 :: '-' :: mo1 :: mo2 :: '-' :: d1 :: d2 :: rest =>
      if [y1, y2, y3, y4, mo1, mo2, d1, d2].all Char.isDigit then
        let y := readNatDigits [y1, y2, y3, y4]
        let m := readNatDigits [mo1, mo2]
        let d := readNatDigits [d1, d2]
        if 1 ≤ y && 1 ≤ m && m ≤ 12 && 1 ≤ d && d ≤ daysInMonth y m then
          match rest with
          | [] => some (y, m, d)
          | _sep :: t => if parseIsoTime t then some (y, m, d) else none
        else none
      else none
  | _ => none

/-! ### JSON serialization of the embedded tag arrays (`json.dumps`) -/

def jsonEscapeChar (c : Char) : List Char :=
  if c = '"' then ['\\', '"']
  else if c = '\\' then ['\\', '\\']
  else if c = '\n' then ['\\', 'n']
  else if c = '\t' then ['\\', 't']
  else if c = '\r' then ['\\', 'r']
  else if c.toNat < 32 then
    '\\' :: 'u' :: '0' :: '0' :: [hexDigitChar (c.toNat / 16), hexDigitChar (c.toNat % 16)]
  else [c]

def jsonQuote (s : String) : List Char :=
  '"' :: s.data.flatMap jsonEscapeChar ++ ['"']

def joinWithSep (sep : List Char) : List (List Char) → List Char
  | [] => []
  | [x] => x
  | x :: xs => x ++ sep ++ joinWithSep sep xs

def jsonDumpsStrings (xs : List String) : String :=
  String.mk ('[' :: joinWithSep (", ".data) (xs.map jsonQuote) ++ [']'])

def jsonDumpsInts (xs : List Int) : String :=
  String.mk ('[' :: joinWithSep (", ".data) (xs.map (fun n => (toString n).data)) ++ [']'])

/-! ### Local cache store (`src/data_store.py`)

A stored `time_entries` row.  `duration_hours` is a SQLite REAL that
the source only sums and compares; it is modelled exactly in `ℚ`.
-/

structure Row where
  id : Int
  description : String
  start : String
  stop : String
  duration : Int
  project_id : Option Int
  project_name : String
  workspace_id : Option Int
  tags : String
  tag_ids : String
  billable : Nat
  atField : String
  start_date : Option String
  start_year : Option Int
  start_month : Option Int
  start_day : Option Int
  start_week : Option Int
  duration_hours : ℚ
deriving DecidableEq

/-- Loop body of `upsert_time_entries` for one entry: derive the date
columns (ISO parse, falling back to string slicing) and build the
stored row.  `none` models an uncaught `ValueError` from `int()` in
the fallback branch, which aborts the whole upsert before any write. -/
def toRow (e : Entry) : Option Row :=
  let cs := e.start.data
  let derived : Option (Option String × Option Int × Option Int × Option Int × Option Int) :=
    match parseIso (replaceZ e.start).data with
    | some (y, m, d) =>
        some (some (strftimeDate y m d), some (y : Int), some (m : Int), some (d : Int),
          some (isoWeek y m d : Int))
    | none =>
        let yearO : Option (Option Int) :=
          if 4 ≤ cs.length then (pyInt (cs.take 4)).map some else some none
        let monthO : Option (Option Int) :=
          if 7 ≤ cs.length then (pyInt ((cs.drop 5).take 2)).map some else some none
        let dayO : Option (Option Int) :=
          if 10 ≤ cs.length then (pyInt ((cs.drop 8).take 2)).map some else some none
        match yearO, monthO, dayO with
        | some sy, some sm, some sd =>
            some (if 10 ≤ cs.length then some (String.mk (cs.take 10)) else none, sy, sm, sd, none)
        | _, _, _ => none
  derived.map fun der =>
    { id := e.id
      description := e.description
      start := e.start
      stop := e.stop
      duration := e.duration
      project_id := e.project_id
      project_name := e.project_name
      workspace_id := e.workspace_id
      tags := jsonDumpsStrings e.tags
      tag_ids := jsonDumpsInts e.tag_ids
      billable := if e.billable then 1 else 0
      atField := e.atField
      start_date := der.1
      start_year := der.2.1
      start_month := der.2.2.1
      start_day := der.2.2.2.1
      start_week := der.2.2.2.2
      duration_hours := (max e.duration 0 : Int) / 3600 }

/-- `INSERT OR REPLACE` keyed on the `INTEGER PRIMARY KEY id`: the
conflicting row is deleted and the new row inserted. -/
def insertOrReplace (t : List Row) (r : Row) : List Row :=
  (t.filter fun x => decide (x.id ≠ r.id)) ++ [r]

def applyRows (t : List Row) (rows : List Row) : List Row :=
  rows.foldl insertOrReplace t

/-- `upsert_time_entries`: derive all rows, then write them in order
(`executemany` + commit); a row-derivation error aborts with no write. -/
def upsert_time_entries (t : List Row) (es : List Entry) : Option (List Row) :=
  (es.mapM toRow).map (applyRows t)

/-! ### Read queries -/

def sortByStartAsc (t : List Row) : List Row :=
  t.insertionSort fun a b => strLe a.start b.start = true

def sortByStartDesc (t : List Row) : List Row :=
  t.insertionSort fun a b => strLe b.start a.start = true

/-- `ORDER BY start_year ASC, start ASC` (SQLite sorts NULLs first). -/
def yearStartLe (a b : Row) : Bool :=
  match a.start_year, b.start_year with
  | none, none => strLe a.start b.start
  | none, some _ => true
  | some _, none => false
  | some x, some y => decide (x < y) || (decide (x = y) && strLe a.start b.start)

def sortByYearStart (t : List Row) : List Row :=
  t.insertionSort fun a b => yearStartLe a b = true

/-- The `WHERE` clause of `get_entries_df`: `duration > 0` plus the
optional filters.  Falsy arguments (`None`, `0`, `""`) skip their
filter, mirroring Python truthiness; a NULL `start_date` fails the
SQL comparison. -/
def entryMatches (year : Option Int) (startD endD : Option String) (r : Row) : Bool :=
  decide (0 < r.duration) &&
  (match year with
   | some y => if y = 0 then true else r.start_year == some y
   | none => true) &&
  (match startD with
   | some s =>
       if s = "" then true
       else match r.start_date with
            | some d => strLe s d
            | none => false
   | none => true) &&
  (match endD with
   | some s =>
       if s = "" then true
       else match r.start_date with
            | some d => strLe d s
            | none => false
   | none => true)

/-- `get_entries_df`: the main read, `WHERE duration > 0` plus
optional year / inclusive date-range filters, `ORDER BY start ASC`. -/
def get_entries_df (t : List Row) (year : Option Int) (startD endD : Option String) : List Row :=
  sortByStartAsc (t.filter (entryMatches year startD endD))

/-- `get_available_years`: `SELECT DISTINCT start_year ... WHERE
start_year IS NOT NULL ORDER BY start_year` — note: no duration filter. -/
def get_available_years (t : List Row) : List Int :=
  ((t.filterMap Row.start_year).dedup).insertionSort fun a b => a ≤ b

def get_entries_for_date_across_years (t : List Row) (month day : Int) : List Row :=
  sortByYearStart (t.filter fun r =>
    r.start_month == some month && r.start_day == some day && decide (0 < r.duration))

def get_entries_for_week_across_years (t : List Row) (week : Int) : List Row :=
  sortByYearStart (t.filter fun r =>
    r.start_week == some week && decide (0 < r.duration))

structure Stats where
  total_entries : Nat
  total_hours : Option ℚ
  earliest_date : Option String
  latest_date : Option String
  unique_projects : Nat
  years_tracked : Nat
deriving DecidableEq

/-- `get_total_stats`: aggregates over `WHERE duration > 0`
(`SUM`/`MIN`/`MAX` of an empty selection are NULL, hence `Option`). -/
def get_total_stats (t : List Row) : Stats :=
  let live := t.filter fun r => decide (0 < r.duration)
  { total_entries := live.length
    total_hours := if live.isEmpty then none else some ((live.map Row.duration_hours).sum)
    earliest_date := (live.filterMap Row.start_date).foldl
      (fun acc s => match acc with
        | none => some s
        | some m => if strLe s m then some s else some m) none
    latest_date := (live.filterMap Row.start_date).foldl
      (fun acc s => match acc with
        | none => some s
        | some m => if strLe m s then some s else some m) none
    unique_projects := (((live.map Row.project_name).filter fun s => s != "").dedup).length
    years_tracked := ((live.filterMap Row.start_year).dedup).length }

/-- `search_entries`: case-insensitive substring match (SQLite `LIKE
'%kw%'` with ASCII folding) over description / project name / stored
tags text, `duration > 0`, newest first, `LIMIT limit`. -/
def search_entries (t : List Row) (keyword : String) (limit : Nat) : List Row :=
  (sortByStartDesc (t.filter fun r =>
    (containsSubCI keyword.data r.description.data ||
     containsSubCI keyword.data r.project_name.data ||
     containsSubCI keyword.data r.tags.data) &&
    decide (0 < r.duration))).take limit

/-- `get_entries_by_tag`: `tags LIKE '%"tag"%'` (case-insensitive)
plus `duration > 0` and an optional (truthy) year filter. -/
def get_entries_by_tag (t : List Row) (tagName : String) (year : Option Int) : List Row :=
  sortByStartDesc (t.filter fun r =>
    containsSubCI ('"' :: tagName.data ++ ['"']) r.tags.data &&
    decide (0 < r.duration) &&
    (match year with
     | some y => if y = 0 then true else r.start_year == some y
     | none => true))

/-- `get_all_project_names`: distinct non-empty project names from the
`time_entries` table, sorted — note: no duration filter. -/
def get_all_project_names (t : List Row) : List String :=
  (((t.map Row.project_name).filter fun s => s != "").dedup).insertionSort
    fun a b => strLe a b = true

/-! ### Query router (`answer_question` in `src/queries.py`)

The router lowers and strips the question, then walks a chain of
guarded returns; each guard is a substring test or an `re.search`.
The regexes are embedded as recognizers on `List Char` with Python
`re` semantics for the constructs they use: leftmost match, ordered
alternation with backtracking, greedy `\s+`/`\w+`/`\d{1,2}`, a lazy
`(.+?)`, optional groups tried greedily, and `$`/`\b` anchors.
-/

/-- `re.search` driver: try the position-matcher at every position,
leftmost first, giving it the previous character (for `\b`). -/
def scanWithPrev (f : Option Char → List Char → Option α) :
    Option Char → List Char → Option α
  | prev, [] => f prev []
  | prev, c :: cs =>
      match f prev (c :: cs) with
      | some r => some r
      | none => scanWithPrev f (some c) cs

/-- `\s+`: require at least one whitespace character, consume the run. -/
def wsPlus : List Char → Option (List Char)
  | c :: cs => if isWsChar c then some (cs.dropWhile isWsChar) else none
  | [] => none

/-- Match a literal, returning the rest. -/
def lit : List Char → List Char → Option (List Char)
  | [], cs => some cs
  | l :: ls, c :: cs => if c = l then lit ls cs else none
  | _ :: _, [] => none

/-- Ordered alternation `(?:a1|a2|...)` with full backtracking into the
continuation. -/
def litAlt (alts : List (List Char)) (k : List Char → Option α) (cs : List Char) : Option α :=
  match alts with
  | [] => none
  | a :: rest =>
      match lit a cs with
      | some cs' =>
          match k cs' with
          | some r => some r
          | none => litAlt rest k cs
      | none => litAlt rest k cs

/-- `20\d{2}` at the current position (no boundary), returning the year
value and the rest. -/
def year4 : List Char → Option (Nat × List Char)
  | '2' :: '0' :: d1 :: d2 :: rest =>
      if d1.isDigit && d2.isDigit then
        some (2000 + 10 * digitVal d1 + digitVal d2, rest)
      else none
  | _ => none

/-- `\b(20\d{2})\b` at one position. -/
def yearTokenAt (prev : Option Char) (cs : List Char) : Option Nat :=
  if (match prev with | some p => isWordChar p | none => false) then none
  else
    match year4 cs with
    | some (y, rest) =>
        match rest with
        | [] => some y
        | c :: _ => if isWordChar c then none else some y
    | none => none

/-- `re.search(r'\b(20\d{2})\b', q)`. -/
def extract_year (cs : List Char) : Option Nat :=
  scanWithPrev yearTokenAt none cs

def anyKeyword (kws : List String) (cs : List Char) : Bool :=
  kws.any fun k => containsSub k.data cs

/-- `(?:\s+in\s+(20\d{2}))?$`: the greedy optional year suffix then end
of input; returns the captured year. -/
def inYearEnd (cs : List Char) : Option (Option Nat) :=
  match (do
    let cs1 ← wsPlus cs
    let cs2 ← lit "in".data cs1
    let cs3 ← wsPlus cs2
    match year4 cs3 with
    | some (y, []) => some (some y)
    | _ => none : Option (Option Nat)) with
  | some r => some r
  | none => if cs.isEmpty then some none else none

/-- `["\']?(?:\s+in\s+(20\d{2}))?$`: greedy optional closing quote,
backtracking if the suffix then fails. -/
def quoteYearEnd (cs : List Char) : Option (Option Nat) :=
  match cs with
  | c :: cs' =>
      if c = '"' || c = '\'' then
        match inYearEnd cs' with
        | some r => some r
        | none => inYearEnd cs
      else inYearEnd cs
  | [] => inYearEnd []

/-- The lazy `(.+?)` followed by `quoteYearEnd`: grow the capture one
character at a time (never across a newline), first success wins. -/
def lazyNameGo (acc : List Char) : List Char → Option (List Char × Option Nat)
  | [] =>
      if acc.isEmpty then none
      else (quoteYearEnd []).map fun yr => (acc.reverse, yr)
  | c :: cs =>
      match (if acc.isEmpty then none
             else (quoteYearEnd (c :: cs)).map fun yr => (acc.reverse, yr)) with
      | some r => some r
      | none => if c = '\n' then none else lazyNameGo (c :: acc) cs

/-- `(?:kw1|kw2)\s+["\']?(.+?)["\']?(?:\s+in\s+(20\d{2}))?$` at one
position (shared by the tag and project-prefix matchers). -/
def nameLikeAt (kws : List String) (_prev : Option Char) (cs : List Char) :
    Option (List Char × Option Nat) :=
  litAlt (kws.map String.data)
    (fun cs1 => do
      let cs2 ← wsPlus cs1
      match cs2 with
      | c :: cs3 =>
          if c = '"' || c = '\'' then
            match lazyNameGo [] cs3 with
            | some r => some r
            | none => lazyNameGo [] cs2
          else lazyNameGo [] cs2
      | [] => none)
    cs

/-- Search for the tag/project pattern and apply the `.strip()` the
source applies to `group(1)`. -/
def searchNameLike (kws : List String) (cs : List Char) : Option (String × Option Nat) :=
  (scanWithPrev (nameLikeAt kws) none cs).map fun p => (String.mk (stripChars p.1), p.2)

/-- Tail of the date pattern after `(\w+)\s+(\d{1,2})`: the optional
ordinal `(?:st|nd|rd|th)?` and the optional `(?:[,\s]+(\d{4}))?`
(both greedy; neither can fail, so no backtracking arises). -/
def dateTail (w : List Char) (day : Nat) (cs : List Char) : Option (List Char × Nat × Option Nat) :=
  let cs1 :=
    match lit "st".data cs with
    | some r => r
    | none =>
        match lit "nd".data cs with
        | some r => r
        | none =>
            match lit "rd".data cs with
            | some r => r
            | none =>
                match lit "th".data cs with
                | some r => r
                | none => cs
  let sep := cs1.takeWhile fun c => c = ',' || isWsChar c
  let yr :=
    if sep.isEmpty then none
    else
      let rest := cs1.drop sep.length
      let ds := (rest.takeWhile Char.isDigit).take 4
      if ds.length = 4 then some (readNatDigits ds) else none
  some (w, day, yr)

/-- `(?:on|for)\s+(?:(\w+)\s+(\d{1,2})(?:st|nd|rd|th)?(?:[,\s]+(\d{4}))?)`
at one position.  `(\w+)` can only ever match its maximal run here
(shrinking it puts a word character in front of `\s+`). -/
def dateAt (_prev : Option Char) (cs : List Char) : Option (List Char × Nat × Option Nat) :=
  litAlt ["on".data, "for".data]
    (fun cs1 => do
      let cs2 ← wsPlus cs1
      let w := cs2.takeWhile isWordChar
      if w.isEmpty then none
      else do
        let cs3 ← wsPlus (cs2.drop w.length)
        match cs3 with
        | a :: b :: rest =>
            if a.isDigit then
              if b.isDigit then dateTail w (10 * digitVal a + digitVal b) rest
              else dateTail w (digitVal a) (b :: rest)
            else none
        | [a] => if a.isDigit then dateTail w (digitVal a) [] else none
        | [] => none)
    cs

def searchDatePat (cs : List Char) : Option (List Char × Nat × Option Nat) :=
  scanWithPrev dateAt none cs

/-- The `MONTH_MAP` dict. -/
def monthMapPairs : List (String × Nat) :=
  [("january", 1), ("jan", 1), ("february", 2), ("feb", 2), ("march", 3), ("mar", 3),
   ("april", 4), ("apr", 4), ("may", 5), ("june", 6), ("jun", 6),
   ("july", 7), ("jul", 7), ("august", 8), ("aug", 8), ("september", 9), ("sep", 9), ("sept", 9),
   ("october", 10), ("oct", 10), ("november", 11), ("nov", 11), ("december", 12), ("dec", 12)]

def monthMap (w : List Char) : Option Nat :=
  (monthMapPairs.find? fun p => p.1.data == w).map Prod.snd

/-- `week\s*(\d{1,2})` at one position. -/
def weekNumAt (_prev : Option Char) (cs : List Char) : Option Nat :=
  (lit "week".data cs).bind fun cs1 =>
    let cs2 := cs1.dropWhile isWsChar
    match cs2 with
    | a :: b :: _ =>
        if a.isDigit then
          some (if b.isDigit then 10 * digitVal a + digitVal b else digitVal a)
        else none
    | [a] => if a.isDigit then some (digitVal a) else none
    | [] => none

def searchWeekNum (cs : List Char) : Option Nat :=
  scanWithPrev weekNumAt none cs

/-- Body of the compare pattern from the first year on:
`(20\d{2})\s+(?:and|vs|to|with|versus)\s+(20\d{2})`. -/
def compareBody (cs : List Char) : Option (Nat × Nat) := do
  let (a, cs1) ← year4 cs
  let cs2 ← wsPlus cs1
  litAlt (["and", "vs", "to", "with", "versus"].map String.data)
    (fun cs3 => do
      let cs4 ← wsPlus cs3
      let (b, _) ← year4 cs4
      some (a, b))
    cs2

/-- `(?:compare\s+)?` then the body, at one position. -/
def compareAt (_prev : Option Char) (cs : List Char) : Option (Nat × Nat) :=
  match (do
    let cs1 ← lit "compare".data cs
    let cs2 ← wsPlus cs1
    compareBody cs2 : Option (Nat × Nat)) with
  | some r => some r
  | none => compareBody cs

def searchCompare (cs : List Char) : Option (Nat × Nat) :=
  scanWithPrev compareAt none cs

/-- `(?:in|last|for)\s+(\w+)(?:\s+(20\d{2}))?` at one position;
`(\w+)` again only matches maximally. -/
def monthPatAt (_prev : Option Char) (cs : List Char) : Option (List Char × Option Nat) :=
  litAlt (["in", "last", "for"].map String.data)
    (fun cs1 => do
      let cs2 ← wsPlus cs1
      let w := cs2.takeWhile isWordChar
      if w.isEmpty then none
      else
        let rest := cs2.drop w.length
        let yr : Option Nat := do
          let r1 ← wsPlus rest
          let (y, _) ← year4 r1
          some y
        some (w, yr))
    cs

def searchMonthPat (cs : List Char) : Option (List Char × Option Nat) :=
  scanWithPrev monthPatAt none cs

/-- `(?:search|find|look for|when did i)\s+(.+)` at one position; the
greedy `(.+)` takes everything up to the end (or a newline). -/
def searchKwAt (_prev : Option Char) (cs : List Char) : Option (List Char) :=
  litAlt (["search", "find", "look for", "when did i"].map String.data)
    (fun cs1 => do
      let cs2 ← wsPlus cs1
      let g := cs2.takeWhile fun c => c ≠ '\n'
      if g.isEmpty then none else some g)
    cs

/-- Search then `.strip().strip('"\'')` as applied to the keyword. -/
def searchKeywordPat (cs : List Char) : Option String :=
  (scanWithPrev searchKwAt none cs).map fun g =>
    String.mk (stripTheseChars ['"', '\''] (stripChars g))

def rstripChars (cs : List Char) : List Char :=
  (cs.reverse.dropWhile isWsChar).reverse

/-- Where `answer_question` dispatches for a given question: one
constructor per guarded-return block, carrying the arguments the block
extracts (name resolution and aggregation happen inside the handler). -/
inductive Route where
  | topProjects (year : Option Nat)
  | topTags (year : Option Nat)
  | tagQuery (name : String) (year : Option Nat)
  | specificDate (y m d : Nat)
  | dateAcrossYears (m d : Nat)
  | thisWeek
  | lastWeek
  | weekNum (n : Nat)
  | today
  | yesterday
  | compare (a b : Nat)
  | projectScoped (name : String) (year : Option Nat)
  | tagScoped (name : String) (year : Option Nat)
  | totals
  | month (m : Nat) (year : Option Nat)
  | yearSummary (y : Nat)
  | projectPrefix (name : String) (year : Option Nat)
  | bareProject (name : String)
  | search (keyword : String)
  | help
deriving DecidableEq

def topProjectKeywords : List String :=
  ["top project", "biggest project", "most project", "best project", "main project"]

def topTagKeywords : List String :=
  ["top tag", "biggest tag", "most tag", "best tag", "main tag", "what tag"]

def totalsKeywords : List String :=
  ["total", "overall", "how much time", "all time", "lifetime"]

def mTopProjects (cs : List Char) : Option Route :=
  if anyKeyword topProjectKeywords cs then some (.topProjects (extract_year cs)) else none

def mTopTags (cs : List Char) : Option Route :=
  if anyKeyword topTagKeywords cs then some (.topTags (extract_year cs)) else none

def mTagQuery (cs : List Char) : Option Route :=
  (searchNameLike ["tagged", "tag"] cs).map fun p => .tagQuery p.1 p.2

/-- The date matcher fires only when the regex matches and the captured
word is a month name (otherwise `answer_question` falls through). -/
def mDateQuery (cs : List Char) : Option Route :=
  (searchDatePat cs).bind fun g =>
    (monthMap g.1).map fun m =>
      match g.2.2 with
      | some y => .specificDate y m g.2.1
      | none => .dateAcrossYears m g.2.1

def mWeekQuery (cs : List Char) : Option Route :=
  if containsSub "this week".data cs then some .thisWeek
  else if containsSub "last week".data cs then some .lastWeek
  else (searchWeekNum cs).map .weekNum

def mTodayQuery (cs : List Char) : Option Route :=
  if containsSub "today".data cs then some .today
  else if containsSub "yesterday".data cs then some .yesterday
  else none

def mCompare (cs : List Char) : Option Route :=
  (searchCompare cs).map fun p => .compare p.1 p.2

/-- The totals block: keyword hit, then scoped to the first known
project (then tag) whose lowered name occurs in the question. -/
def mTotals (kp kt : List String) (cs : List Char) : Option Route :=
  if anyKeyword totalsKeywords cs then
    match kp.find? fun p => containsSub (lowerChars p.data) cs with
    | some p => some (.projectScoped p (extract_year cs))
    | none =>
        match kt.find? fun tg => containsSub (lowerChars tg.data) cs with
        | some tg => some (.tagScoped tg (extract_year cs))
        | none => some .totals
  else none

def mMonth (cs : List Char) : Option Route :=
  (searchMonthPat cs).bind fun g =>
    (monthMap g.1).map fun m => .month m g.2

def mYear (cs : List Char) : Option Route :=
  (extract_year cs).map .yearSummary

def mProjectQuery (cs : List Char) : Option Route :=
  (searchNameLike ["project"] cs).map fun p => .projectPrefix p.1 p.2

def mBareProject (kp : List String) (cs : List Char) : Option Route :=
  (kp.find? fun p =>
    lowerChars p.data == cs || cs == rstripChars (lowerChars p.data)).map .bareProject

def mSearch (cs : List Char) : Option Route :=
  (searchKeywordPat cs).map .search

/-- `q = question.lower().strip()`. -/
def canonQ (question : String) : List Char :=
  stripChars (lowerChars question.data)

/-- The dispatch of `answer_question`, block for block in source
order. -/
def answer_question_route (kp kt : List String) (question : String) : Route :=
  let cs := canonQ question
  (mTopProjects cs <|> mTopTags cs <|> mTagQuery cs <|> mDateQuery cs <|>
   mWeekQuery cs <|> mTodayQuery cs <|> mCompare cs <|> mTotals kp kt cs <|>
   mMonth cs <|> mYear cs <|> mProjectQuery cs <|> mBareProject kp cs <|>
   mSearch cs).getD .help

/-- A matcher as an ordered `(predicate, handler)` pair in the sense of
the spec: it either fires with a route or declines. -/
def Matcher : Type :=
  List String → List String → List Char → Option Route

/-- `answer_question`'s matchers, in the source's order. -/
def codeOrderMatchers : List Matcher :=
  [fun _ _ cs => mTopProjects cs,
   fun _ _ cs => mTopTags cs,
   fun _ _ cs => mTagQuery cs,
   fun _ _ cs => mDateQuery cs,
   fun _ _ cs => mWeekQuery cs,
   fun _ _ cs => mTodayQuery cs,
   fun _ _ cs => mCompare cs,
   fun kp kt cs => mTotals kp kt cs,
   fun _ _ cs => mMonth cs,
   fun _ _ cs => mYear cs,
   fun _ _ cs => mProjectQuery cs,
   fun kp _ cs => mBareProject kp cs,
   fun _ _ cs => mSearch cs]

/-- Modelled from the spec: the same matchers in the priority order the
spec asserts — "explicit comparisons, specific-date, named-period,
top-N project/tag, tag-scoped, project-scoped, keyword search, bare
year, bare project name" — with the week/today/month matchers bundled
as "named-period" and the totals block (absent from the spec's list)
appended before the help fallback. -/
def specOrderMatchers : List Matcher :=
  [fun _ _ cs => mCompare cs,
   fun _ _ cs => mDateQuery cs,
   fun _ _ cs => mWeekQuery cs,
   fun _ _ cs => mTodayQuery cs,
   fun _ _ cs => mMonth cs,
   fun _ _ cs => mTopProjects cs,
   fun _ _ cs => mTopTags cs,
   fun _ _ cs => mTagQuery cs,
   fun _ _ cs => mProjectQuery cs,
   fun _ _ cs => mSearch cs,
   fun _ _ cs => mYear cs,
   fun kp _ cs => mBareProject kp cs,
   fun kp kt cs => mTotals kp kt cs]

/-- First matcher that fires wins; none firing is the help message. -/
def firstRoute : List Matcher → List String → List String → List Char → Route
  | [], _, _, _ => .help
  | m :: ms, kp, kt, cs =>
      match m kp kt cs with
      | some r => r
      | none => firstRoute ms kp kt cs

def routeSpecOrder (kp kt : List String) (question : String) : Route :=
  firstRoute specOrderMatchers kp kt (canonQ question)

/-- The month handler's date range (`_answer_month` with a year):
first of the month through the first of the next month, except
December, which is bounded at December 31. -/
def monthRangeStart (year month : Nat) : String :=
  toString year ++ "-" ++ padZeros 2 month ++ "-01"

def monthRangeEnd (year month : Nat) : String :=
  if month = 12 then toString year ++ "-12-31"
  else toString year ++ "-" ++ padZeros 2 (month + 1) ++ "-01"

/-- `_answer_month`'s query against the store for a month with a year. -/
def answerMonthQuery (t : List Row) (month year : Nat) : List Row :=
  get_entries_df t none (some (monthRangeStart year month)) (some (monthRangeEnd year month))

/-! ### Sync orchestrator progress reporting (`src/sync.py`)

The sequence of fractions a completed run hands to the progress
callback.  Python floats are modelled exactly in `ℚ` (every quantity
here is a small rational and no claim is within float rounding of the
boundary).  A failed year reports the same two fractions as a
successful one, so the sequence depends only on the number of years
`n = current_year - earliest_year + 1` (`n = 0` when `earliest_year`
exceeds the current year: the loop is empty and the division by
`len(years)` is never evaluated).
-/

/-- `frac = 0.06 + (0.90 * (i / len(years)))` for year index `i`. -/
def syncYearFrac (n i : Nat) : ℚ :=
  6/100 + (9/10) * ((i : ℚ) / (n : ℚ))

/-- The two fractions reported per year, over all years. -/
def syncBlock (n : Nat) : List ℚ :=
  (List.range n).flatMap fun i => [syncYearFrac n i, syncYearFrac n i + 4/100]

def syncAllFracs (n : Nat) : List ℚ :=
  [0, 2/100, 4/100, 6/100] ++ syncBlock n ++ [1, 1]

/-- `sync_current_year` reports 0.0, 0.3, then 1.0. -/
def syncCurrentFracs : List ℚ :=
  [0, 3/10, 1]

/-! ### Rate limiter (`RateLimiter.wait_if_needed`)

Time is an idealized `ℚ` clock: `time.sleep(d)` advances it by exactly
`d` and everything else is instantaneous (real sleeps only take
longer, so modelled completion times are lower bounds on wall-clock
times).
-/

structure LimState where
  lastRequest : ℚ
  timestamps : List ℚ
deriving DecidableEq

/-- One `wait_if_needed` call entered at clock time `now`: returns the
recorded request time (the clock when the call returns) and the new
state.  `maxPerHour = 30` and `minInterval = 1.1` in the source; with
`max_per_hour = 0` and an empty window the source would raise on
`self._timestamps[0]`, modelled by `headD 0`. -/
def wait_if_needed (maxPerHour : Nat) (minInterval : ℚ) (st : LimState) (now : ℚ) :
    ℚ × LimState :=
  let sleep1 := if now - st.lastRequest < minInterval then minInterval - (now - st.lastRequest) else 0
  let t1 := now + sleep1
  let cutoff := t1 - 3600
  let stamps := st.timestamps.filter fun t => decide (cutoff < t)
  let sleep2 := if maxPerHour ≤ stamps.length then stamps.headD 0 - cutoff + 1 else 0
  let recTime := t1 + sleep2
  (recTime, { lastRequest := recTime, timestamps := stamps ++ [recTime] })

/-- N consecutive acquire calls: call 1 arrives `d₁` after `start`,
call k+1 arrives `d_{k+1}` after call k returned.  Returns the list of
recorded request times. -/
def runAcquires (maxPerHour : Nat) (minInterval : ℚ) (st : LimState) (now : ℚ) :
    List ℚ → List ℚ
  | [] => []
  | d :: ds =>
      let step := wait_if_needed maxPerHour minInterval st (now + d)
      step.1 :: runAcquires maxPerHour minInterval step.2 step.1 ds

/-! ### HTTP retry loop (`TogglClient._request`)

One remote response per attempt.  `Retry-After` and
`X-Toggl-Quota-Resets-In` are header strings (absent = `none`); the
source reads the latter with default `"?"`, so a literal `"?"` value
behaves like an absent header.
-/

structure Resp where
  status : Nat
  retryAfter : Option String
  quotaResetsIn : Option String
deriving DecidableEq

/-- How a `_request` call ends: a returned response (the attempt index
that succeeded), an `HTTPError` from `raise_for_status`, a
`ValueError` from `int()` on a malformed header, or the
`RuntimeError` after the loop exhausts its attempts. -/
inductive ReqOutcome where
  | success (attempt : Nat)
  | httpError (attempt status : Nat)
  | headerError (attempt : Nat)
  | exhausted
deriving DecidableEq

/-- The `for attempt in range(retries)` loop; `fuel` is the number of
attempts left (`retries - attempt`).  Returns the outcome and the
sleeps performed, in order. -/
def requestGo (resps : Nat → Resp) (retries : Nat) (attempt : Nat) :
    Nat → ReqOutcome × List Int
  | 0 => (.exhausted, [])
  | fuel + 1 =>
      let r := resps attempt
      if r.status = 429 then
        match (match r.retryAfter with
               | none => some (5 : Int)
               | some s => pyIntStr s) with
        | some w =>
            let rest := requestGo resps retries (attempt + 1) fuel
            (rest.1, w :: rest.2)
        | none => (.headerError attempt, [])
      else if r.status = 402 && attempt + 1 < retries then
        let resetsIn := r.quotaResetsIn.getD "?"
        match (if resetsIn ≠ "?" then pyIntStr resetsIn else some 120) with
        | some w =>
            let rest := requestGo resps retries (attempt + 1) fuel
            (rest.1, w :: rest.2)
        | none => (.headerError attempt, [])
      else if 400 ≤ r.status then (.httpError attempt r.status, [])
      else (.success attempt, [])

/-- `_request` with its default `retries=3` used by every caller. -/
def request (resps : Nat → Resp) (retries : Nat) : ReqOutcome × List Int :=
  requestGo resps retries 0 retries

/-! ### Auxiliary notions used in the theorems -/

/-- The primary-key column of a batch of rows. -/
def rowKeys (rows : List Row) : List Int :=
  rows.map Row.id

/-- Keep, per id, only the last row of a batch (in order of last
occurrence): the net effect of writing a batch with
`INSERT OR REPLACE`. -/
def compressRows : List Row → List Row
  | [] => []
  | r :: rest => if r.id ∈ rowKeys rest then compressRows rest else r :: compressRows rest

/-! ### Concrete sample data for witnesses and counterexamples -/

/-- Two byte-identical exports of the same logical entry except for
the `Tags` column, which the surrogate id does not cover. -/
def csvRowTagsA : CsvRow :=
  { startDate := "2024-03-01", startTime := "10:00:00", endDate := "2024-03-01",
    endTime := "11:00:00", description := "write spec", project := "Docs",
    duration := "1:00:00", tagsField := "deep", billable := "No" }

def csvRowTagsB : CsvRow :=
  { csvRowTagsA with tagsField := "shallow" }

/-- Rows that differ in description and project but whose seed strings
coincide because the fields contain the `|` separator. -/
def csvRowPipeA : CsvRow :=
  { startDate := "2024-03-01", startTime := "10:00:00", endDate := "2024-03-01",
    endTime := "11:00:00", description := "a|b", project := "c",
    duration := "1:00:00", tagsField := "", billable := "No" }

def csvRowPipeB : CsvRow :=
  { csvRowPipeA with description := "a", project := "b|c" }

/-- A stored zero-duration (running) entry. -/
def zeroDurRow : Row :=
  { id := 1, description := "", start := "2024-05-05T09:00:00", stop := "",
    duration := 0, project_id := none, project_name := "Idle", workspace_id := none,
    tags := "[]", tag_ids := "[]", billable := 0, atField := "",
    start_date := some "2024-05-05", start_year := some 2024, start_month := some 5,
    start_day := some 5, start_week := some 18, duration_hours := 0 }

/-- A stored one-hour entry on 2024-03-01. -/
def marchRow : Row :=
  { id := 2, description := "work", start := "2024-03-01T00:00:00", stop := "2024-03-01T01:00:00",
    duration := 3600, project_id := none, project_name := "P", workspace_id := none,
    tags := "[]", tag_ids := "[]", billable := 0, atField := "",
    start_date := some "2024-03-01", start_year := some 2024, start_month := some 3,
    start_day := some 1, start_week := some 9, duration_hours := 1 }

/-- A stored entry dated exactly on the first of April 2024. -/
def aprilRow : Row :=
  { id := 3, description := "drift", start := "2024-04-01T00:00:00", stop := "2024-04-01T01:00:00",
    duration := 3600, project_id := none, project_name := "P", workspace_id := none,
    tags := "[]", tag_ids := "[]", billable := 0, atField := "",
    start_date := some "2024-04-01", start_year := some 2024, start_month := some 4,
    start_day := some 1, start_week := some 14, duration_hours := 1 }

/-- Two entry records for the upsert witness. -/
def demoEntryA : Entry :=
  { id := 7, description := "d", start := "2024-03-01T10:00:00", stop := "2024-03-01T11:00:00",
    duration := 3600, project_id := none, project_name := "P", workspace_id := none,
    tags := ["a", "b"], tag_ids := [1, 2], billable := false, atField := "" }

def demoEntryB : Entry :=
  { demoEntryA with id := 8, start := "2024-03-02T10:00:00", duration := -10 }

/-- Remote that answers 402 (headers absent) twice, then succeeds. -/
def resps402then200 : Nat → Resp :=
  fun n => if n ≤ 1 then ⟨402, none, none⟩ else ⟨200, none, none⟩

/-- Remote that always answers 402 with no headers. -/
def resps402always : Nat → Resp :=
  fun _ => ⟨402, none, none⟩

/-- Remote that answers 500 immediately. -/
def resps500 : Nat → Resp :=
  fun _ => ⟨500, none, none⟩

/-- Remote answering 402 once, then succeeding. -/
def resps402once : Nat → Resp :=
  fun n => if n = 0 then ⟨402, none, none⟩ else ⟨200, none, none⟩

/-- The store after upserting the two demo entries into an empty table. -/
def demoTable : List Row :=
  (upsert_time_entries [] [demoEntryA, demoEntryB]).getD []

/-! ## Theorems

Shared helper lemmas first, then one theorem (plus witness /
counterexample where required) per claim.
-/

theorem mem_get_entries_df {t : List Row} {year : Option Int} {lo hi : Option String} {r : Row} :
    r ∈ get_entries_df t year lo hi ↔ r ∈ t ∧ entryMatches year lo hi r = true := by
  unfold get_entries_df sortByStartAsc
  rw [List.mem_insertionSort, List.mem_filter]

theorem entryMatches_range {lo hi : String} {r : Row} (hlo : lo ≠ "") (hhi : hi ≠ "") :
    entryMatches none (some lo) (some hi) r = true ↔
      0 < r.duration ∧ ∃ d, r.start_date = some d ∧ strLe lo d = true ∧ strLe d hi = true := by
  unfold entryMatches
  cases hsd : r.start_date with
  | none => simp [hlo, hhi]
  | some d => simp [hlo, hhi, and_assoc]

/-! ### Claim C1 -/

/-- Claim C1 (amended): the derived identifier is a deterministic
function of start, stop, description, project name and duration — two
rows that agree on those five (derived) values get the same id,
whatever else differs.  The sensitivity half of the original claim is
refuted by `claim_C1_counterexample`. -/
theorem claim_C1 : ∀ r1 r2 : CsvRow,
    csvStartIso r1 = csvStartIso r2 → csvStopIso r1 = csvStopIso r2 →
    r1.description = r2.description → r1.project = r2.project →
    parseDurationHMS r1.duration = parseDurationHMS r2.duration →
    (entryOfRow r1).id = (entryOfRow r2).id := by
  intro r1 r2 h1 h2 h3 h4 h5
  show (synthId (csvStartIso r1) (csvStopIso r1) r1.description r1.project
      (parseDurationHMS r1.duration) : Int) =
    (synthId (csvStartIso r2) (csvStopIso r2) r2.description r2.project
      (parseDurationHMS r2.duration) : Int)
  rw [h1, h2, h3, h4, h5]

/-- Claim C1 witness: two export rows identical in the five hashed
fields but with different `Tags` columns get the same id. -/
theorem claim_C1_witness :
    (csvRowTagsA.tagsField != csvRowTagsB.tagsField) = true ∧
    (entryOfRow csvRowTagsA).id = (entryOfRow csvRowTagsB).id :=
  ⟨by decide, claim_C1 csvRowTagsA csvRowTagsB rfl rfl rfl rfl rfl⟩

/-- Claim C1 counterexample: the sensitivity half of the claim is
false.  These two rows differ in description and in project name, yet
their `|`-joined seed strings coincide, so the derived identifiers are
equal. -/
theorem claim_C1_counterexample :
    (csvRowPipeA.description != csvRowPipeB.description) = true ∧
    (csvRowPipeA.project != csvRowPipeB.project) = true ∧
    (entryOfRow csvRowPipeA).id = (entryOfRow csvRowPipeB).id := by
  refine ⟨by decide, by decide, ?_⟩
  have hseed : idSeed (csvStartIso csvRowPipeA) (csvStopIso csvRowPipeA)
      csvRowPipeA.description csvRowPipeA.project (parseDurationHMS csvRowPipeA.duration) =
      idSeed (csvStartIso csvRowPipeB) (csvStopIso csvRowPipeB)
        csvRowPipeB.description csvRowPipeB.project (parseDurationHMS csvRowPipeB.duration) := by
    decide
  show (synthId (csvStartIso csvRowPipeA) (csvStopIso csvRowPipeA)
      csvRowPipeA.description csvRowPipeA.project (parseDurationHMS csvRowPipeA.duration) : Int) =
    (synthId (csvStartIso csvRowPipeB) (csvStopIso csvRowPipeB)
      csvRowPipeB.description csvRowPipeB.project (parseDurationHMS csvRowPipeB.duration) : Int)
  unfold synthId
  rw [hseed]

/-! ### Claim C4 -/

/-- Claim C4 (amended): with the default `retries=3`, a quota-exceeded
(402) answer is retried up to twice, sleeping the remote-supplied
reset delay (fallback 120 s) before each retry; only a 402 on the
final attempt raises; any first status that is neither 2xx/3xx nor
429 nor 402 fails immediately with no retry and no sleep. -/
theorem claim_C4 :
    (∀ resps : Nat → Resp,
       resps 0 = ⟨402, none, none⟩ → resps 1 = ⟨402, none, none⟩ → resps 2 = ⟨402, none, none⟩ →
       request resps 3 = (.httpError 2 402, [120, 120])) ∧
    (∀ resps : Nat → Resp,
       resps 0 = ⟨402, none, none⟩ → (resps 1).status = 200 →
       request resps 3 = (.success 1, [120])) ∧
    (∀ (resps : Nat → Resp) (s : Nat),
       (resps 0).status = s → 400 ≤ s → s ≠ 402 → s ≠ 429 →
       request resps 3 = (.httpError 0 s, [])) := by
  refine ⟨?_, ?_, ?_⟩
  · intro resps h0 h1 h2
    simp [request, requestGo, h0, h1, h2]
  · intro resps h0 h1
    simp [request, requestGo, h0, h1]
  · intro resps s h0 hge h402 h429
    simp [request, requestGo, h0, hge, h402, h429]

/-- Claim C4 witness: the three retry behaviours at concrete remotes:
three straight 402s end in an `HTTPError` after two sleeps; a single
402 followed by a success costs one sleep; a 500 fails at once. -/
theorem claim_C4_witness :
    request resps402always 3 = (.httpError 2 402, [120, 120]) ∧
    request resps402once 3 = (.success 1, [120]) ∧
    request resps500 3 = (.httpError 0 500, []) :=
  ⟨claim_C4.1 resps402always rfl rfl rfl,
   claim_C4.2.1 resps402once rfl rfl,
   claim_C4.2.2 resps500 500 rfl (by decide) (by decide) (by decide)⟩

/-- Claim C4 counterexample: the claim says a 402 is retried exactly
once and a second 402 is fatal; in fact, after two 402 answers the
third attempt still runs (and here succeeds), with two reset-delay
sleeps. -/
theorem claim_C4_counterexample :
    request resps402then200 3 = (.success 2, [120, 120]) := by
  decide

/-! ### Claim C6 -/

/-- Claim C6: for any known project/tag lists, the question
`"2023 vs 2024"` dispatches to the year-comparison handler, which is
neither the bare-year handler nor the keyword-search handler. -/
theorem claim_C6 : ∀ kp kt : List String,
    answer_question_route kp kt "2023 vs 2024" = Route.compare 2023 2024 ∧
    (∀ y : Nat, (Route.compare 2023 2024 == Route.yearSummary y) = false) ∧
    (∀ s : String, (Route.compare 2023 2024 == Route.search s) = false) :=
  fun _ _ => ⟨rfl, fun _ => rfl, fun _ => rfl⟩

/-! ### Claim C7 -/

/-- Claim C7 (amended): the router is first-match-wins over a fixed
matcher order, but the code's order is: top-N projects, top-N tags,
tag-scoped, specific-date, named-period (week/today/month), explicit
comparison, totals (with project/tag scoping), bare year,
project-prefix, bare project name, and keyword search last — not the
order the spec lists (comparisons first, keyword search before bare
year).  `claim_C7_counterexample` separates the two orders. -/
theorem claim_C7 : ∀ (kp kt : List String) (q : String),
    answer_question_route kp kt q = firstRoute codeOrderMatchers kp kt (canonQ q) := by
  intro kp kt q
  simp only [answer_question_route, firstRoute, codeOrderMatchers]
  cases mTopProjects (canonQ q) with
  | some r => rfl
  | none =>
  cases mTopTags (canonQ q) with
  | some r => rfl
  | none =>
  cases mTagQuery (canonQ q) with
  | some r => rfl
  | none =>
  cases mDateQuery (canonQ q) with
  | some r => rfl
  | none =>
  cases mWeekQuery (canonQ q) with
  | some r => rfl
  | none =>
  cases mTodayQuery (canonQ q) with
  | some r => rfl
  | none =>
  cases mCompare (canonQ q) with
  | some r => rfl
  | none =>
  cases mTotals kp kt (canonQ q) with
  | some r => rfl
  | none =>
  cases mMonth (canonQ q) with
  | some r => rfl
  | none =>
  cases mYear (canonQ q) with
  | some r => rfl
  | none =>
  cases mProjectQuery (canonQ q) with
  | some r => rfl
  | none =>
  cases mBareProject kp (canonQ q) with
  | some r => rfl
  | none =>
  cases mSearch (canonQ q) with
  | some r => rfl
  | none => rfl

/-- Claim C7 counterexample: on `"search 2024"` the code's order gives
the bare-year route (the year matcher runs before keyword search),
while the spec's stated order would give the keyword-search route; so
the fixed order the claim asserts is not the code's order. -/
theorem claim_C7_counterexample :
    answer_question_route [] [] "search 2024" = Route.yearSummary 2024 ∧
    routeSpecOrder [] [] "search 2024" = Route.search "2024" ∧
    (Route.yearSummary 2024 == Route.search "2024") = false := by
  refine ⟨by decide, by decide, by decide⟩

/-! ### Claim C3 -/

/-- Claim C3 (amended): the row-returning reads (entries by
year/range, by month-day, by ISO week, keyword search, by tag) return
only positive-duration rows, and the total stats are computed entirely
from the positive-duration rows; but the claim's extension to the
available-years and distinct-project-name listings is false
(`claim_C3_counterexample`): those two queries have no duration
filter. -/
theorem claim_C3 :
    (∀ (t : List Row) (year : Option Int) (lo hi : Option String) (r : Row),
       r ∈ get_entries_df t year lo hi → 0 < r.duration) ∧
    (∀ (t : List Row) (m d : Int) (r : Row),
       r ∈ get_entries_for_date_across_years t m d → 0 < r.duration) ∧
    (∀ (t : List Row) (w : Int) (r : Row),
       r ∈ get_entries_for_week_across_years t w → 0 < r.duration) ∧
    (∀ (t : List Row) (kw : String) (lim : Nat) (r : Row),
       r ∈ search_entries t kw lim → 0 < r.duration) ∧
    (∀ (t : List Row) (tg : String) (y : Option Int) (r : Row),
       r ∈ get_entries_by_tag t tg y → 0 < r.duration) ∧
    (∀ t : List Row,
       get_total_stats t = get_total_stats (t.filter fun r => decide (0 < r.duration))) := by
  refine ⟨?_, ?_, ?_, ?_, ?_, ?_⟩
  · intro t year lo hi r h
    have h2 := (mem_get_entries_df.mp h).2
    unfold entryMatches at h2
    simp only [Bool.and_eq_true, decide_eq_true_eq] at h2
    exact h2.1.1.1
  · intro t m d r h
    unfold get_entries_for_date_across_years sortByYearStart at h
    rw [List.mem_insertionSort, List.mem_filter] at h
    have h2 := h.2
    simp only [Bool.and_eq_true, decide_eq_true_eq] at h2
    exact h2.2
  · intro t w r h
    unfold get_entries_for_week_across_years sortByYearStart at h
    rw [List.mem_insertionSort, List.mem_filter] at h
    have h2 := h.2
    simp only [Bool.and_eq_true, decide_eq_true_eq] at h2
    exact h2.2
  · intro t kw lim r h
    unfold search_entries sortByStartDesc at h
    have h' := List.take_subset lim _ h
    rw [List.mem_insertionSort, List.mem_filter] at h'
    have h2 := h'.2
    simp only [Bool.and_eq_true, decide_eq_true_eq] at h2
    exact h2.2
  · intro t tg y r h
    unfold get_entries_by_tag sortByStartDesc at h
    rw [List.mem_insertionSort, List.mem_filter] at h
    have h2 := h.2
    simp only [Bool.and_eq_true, decide_eq_true_eq] at h2
    exact h2.1.2
  · intro t
    have hff : (t.filter fun r => decide (0 < r.duration)).filter
        (fun r => decide (0 < r.duration)) = t.filter fun r => decide (0 < r.duration) := by
      rw [List.filter_filter]
      exact List.filter_congr fun x _ => Bool.and_self _
    unfold get_total_stats
    rw [hff]

/-- Claim C3 witness: a concrete positive-duration read. -/
theorem claim_C3_witness : 0 < marchRow.duration :=
  claim_C3.1 [marchRow] none none none marchRow (by decide)

/-- Claim C3 counterexample: a store holding only one zero-duration
(running) entry still reports its year in `get_available_years` and
its project in `get_all_project_names` — the zero-duration entry
contributes to both reads, contradicting the claim's "regardless of
filter, all reads" scope. -/
theorem claim_C3_counterexample :
    zeroDurRow.duration = 0 ∧
    get_available_years [zeroDurRow] = [2024] ∧
    get_all_project_names [zeroDurRow] = ["Idle"] :=
  ⟨rfl, by decide, by decide⟩

/-! ### Claim C5 -/

/-- Claim C5: a date-range read with non-empty bounds returns exactly
the stored rows with positive duration whose derived calendar-date
string lies between the bounds inclusively, compared as strings
(`strLe` is SQLite's TEXT comparison); a boundary date is included
whatever its time of day, and dates strictly outside are excluded. -/
theorem claim_C5 : ∀ (t : List Row) (lo hi : String) (r : Row), lo ≠ "" → hi ≠ "" →
    (r ∈ get_entries_df t none (some lo) (some hi) ↔
      r ∈ t ∧ 0 < r.duration ∧
        ∃ d, r.start_date = some d ∧ strLe lo d = true ∧ strLe d hi = true) := by
  intro t lo hi r hlo hhi
  rw [mem_get_entries_df, entryMatches_range hlo hhi]

/-- Claim C5 witness: an entry starting at `2024-03-01T00:00:00` (so
with calendar date equal to the lower bound) is returned by the query
for `[2024-03-01, 2024-03-31]`. -/
theorem claim_C5_witness :
    marchRow ∈ get_entries_df [marchRow] none (some "2024-03-01") (some "2024-03-31") :=
  (claim_C5 [marchRow] "2024-03-01" "2024-03-31" marchRow (by decide) (by decide)).mpr
    ⟨by decide, by decide, "2024-03-01", rfl, by decide, by decide⟩

/-! ### Claim C10 -/

theorem charListLe_refl : ∀ l : List Char, charListLe l l = true := by
  intro l
  induction l with
  | nil => rfl
  | cons c cs ih => simp [charListLe, ih]

theorem strLe_refl (s : String) : strLe s s = true :=
  charListLe_refl s.data

theorem charListLe_append_left (p : List Char) {a b : List Char}
    (h : charListLe a b = true) : charListLe (p ++ a) (p ++ b) = true := by
  induction p with
  | nil => simpa using h
  | cons c cs ih => simpa [charListLe] using ih

/-- The `f"{year}-{month:02d}-01"` strings split after the common
`"{year}-"` prefix. -/
theorem monthRangeStart_data (y mm : Nat) :
    (monthRangeStart y mm).data =
      (toString y).data ++ ('-' :: ((padZeros 2 mm).data ++ "-01".data)) := by
  unfold monthRangeStart
  simp [String.data_append, List.append_assoc]

theorem monthRangeStart_ne_empty (y mm : Nat) : monthRangeStart y mm ≠ "" := by
  intro h
  have hd : (monthRangeStart y mm).data = [] := by rw [h]
  rw [monthRangeStart_data] at hd
  rcases List.append_eq_nil.mp hd with ⟨-, h2⟩
  exact List.cons_ne_nil _ _ h2

/-- The month-start strings are ordered as their months for months in
the same year (string comparison after the shared year prefix). -/
theorem monthStart_le_succ (y m : Nat) (h1 : 1 ≤ m) (h2 : m < 12) :
    strLe (monthRangeStart y m) (monthRangeStart y (m + 1)) = true := by
  unfold strLe
  rw [monthRangeStart_data, monthRangeStart_data]
  apply charListLe_append_left
  interval_cases m <;> decide

/-- Claim C10: for a month-with-year question about any month other
than December, `_answer_month` bounds the inclusive range at the first
day of the following month, so a positive-duration entry dated exactly
on the 1st of the next month is counted in the month's totals; only
December is bounded at December 31. -/
theorem claim_C10 :
    (∀ y m : Nat, 1 ≤ m → m < 12 → monthRangeEnd y m = monthRangeStart y (m + 1)) ∧
    (∀ y : Nat, monthRangeEnd y 12 = toString y ++ "-12-31") ∧
    (∀ (y m : Nat) (t : List Row) (r : Row), 1 ≤ m → m < 12 →
       r ∈ t → 0 < r.duration → r.start_date = some (monthRangeStart y (m + 1)) →
       r ∈ answerMonthQuery t m y) := by
  have hEnd : ∀ y m : Nat, m ≠ 12 → monthRangeEnd y m = monthRangeStart y (m + 1) := by
    intro y m hm
    unfold monthRangeEnd monthRangeStart
    rw [if_neg hm]
  refine ⟨fun y m _ h2 => hEnd y m (by omega), fun y => rfl, ?_⟩
  intro y m t r h1 h2 hmem hdur hsd
  unfold answerMonthQuery
  rw [hEnd y m (by omega), mem_get_entries_df,
    entryMatches_range (monthRangeStart_ne_empty y m) (monthRangeStart_ne_empty y (m + 1))]
  exact ⟨hmem, hdur, monthRangeStart y (m + 1), hsd,
    monthStart_le_succ y m h1 h2, strLe_refl _⟩

/-- Claim C10 witness: the March 2024 query (range bounded at
2024-04-01) includes a positive-duration entry dated 2024-04-01. -/
theorem claim_C10_witness : aprilRow ∈ answerMonthQuery [aprilRow] 3 2024 :=
  claim_C10.2.2 2024 3 [aprilRow] aprilRow (by decide) (by decide) (by decide) (by decide)
    (by decide)

/-! ### Claim C2 -/

/-- Writing a batch with `INSERT OR REPLACE` keeps the pre-existing
rows whose ids are untouched and appends the per-id last occurrences
of the batch. -/
theorem applyRows_characterization : ∀ (rows t : List Row),
    applyRows t rows =
      t.filter (fun x => decide (x.id ∉ rowKeys rows)) ++ compressRows rows := by
  intro rows
  induction rows with
  | nil =>
      intro t
      simp [applyRows, compressRows, rowKeys]
  | cons r rest ih =>
      intro t
      have step : applyRows t (r :: rest) = applyRows (insertOrReplace t r) rest := rfl
      rw [step, ih, insertOrReplace, List.filter_append, List.filter_filter]
      have hpt : ∀ x ∈ t,
          ((fun x : Row => decide (x.id ∉ rowKeys rest)) x &&
            (fun x : Row => decide (x.id ≠ r.id)) x) =
          (fun x : Row => decide (x.id ∉ rowKeys (r :: rest))) x := by
        intro x _
        by_cases h1 : x.id = r.id <;> by_cases h2 : x.id ∈ rowKeys rest <;>
          simp [rowKeys, List.mem_cons, h1, h2]
      rw [List.filter_congr hpt]
      by_cases hmem : r.id ∈ rowKeys rest
      · have hr : List.filter (fun x : Row => decide (x.id ∉ rowKeys rest)) [r] = [] := by
          simp [hmem]
        rw [hr, compressRows, if_pos hmem, List.append_assoc, List.nil_append]
      · have hr : List.filter (fun x : Row => decide (x.id ∉ rowKeys rest)) [r] = [r] := by
          simp [hmem]
        rw [hr, compressRows, if_neg hmem, List.append_assoc, List.singleton_append]

theorem compressRows_subset : ∀ rows : List Row, ∀ x ∈ compressRows rows, x ∈ rows := by
  intro rows
  induction rows with
  | nil => simp [compressRows]
  | cons r rest ih =>
      intro x hx
      rw [compressRows] at hx
      by_cases h : r.id ∈ rowKeys rest
      · rw [if_pos h] at hx
        exact List.mem_cons_of_mem _ (ih x hx)
      · rw [if_neg h] at hx
        rcases List.mem_cons.mp hx with hx | hx
        · exact hx ▸ List.mem_cons_self _ _
        · exact List.mem_cons_of_mem _ (ih x hx)

theorem compressRows_filter_nil (rows : List Row) :
    (compressRows rows).filter (fun x => decide (x.id ∉ rowKeys rows)) = [] := by
  rw [List.filter_eq_nil_iff]
  intro a ha
  simp only [decide_eq_true_eq, Decidable.not_not]
  exact List.mem_map_of_mem Row.id (compressRows_subset rows a ha)

theorem applyRows_idem (rows t : List Row) :
    applyRows (applyRows t rows) rows = applyRows t rows := by
  rw [applyRows_characterization rows t, applyRows_characterization rows]
  rw [List.filter_append, compressRows_filter_nil, List.append_nil, List.filter_filter]
  have hpt : ∀ x ∈ t,
      ((fun x : Row => decide (x.id ∉ rowKeys rows)) x &&
        (fun x : Row => decide (x.id ∉ rowKeys rows)) x) =
      (fun x : Row => decide (x.id ∉ rowKeys rows)) x := fun x _ => Bool.and_self _
  rw [List.filter_congr hpt]

theorem keys_insertOrReplace_nodup {t : List Row} {r : Row} (h : (rowKeys t).Nodup) :
    (rowKeys (insertOrReplace t r)).Nodup := by
  unfold insertOrReplace rowKeys
  rw [List.map_append, List.nodup_append]
  refine ⟨((List.filter_sublist t).map Row.id).nodup h, List.nodup_singleton _, ?_⟩
  intro a ha hb
  rcases List.mem_map.mp ha with ⟨x, hx, rfl⟩
  rcases List.mem_filter.mp hx with ⟨-, hq⟩
  rcases List.mem_singleton.mp hb with hb
  exact of_decide_eq_true hq hb

theorem rowKeys_applyRows_nodup : ∀ rows t : List Row,
    (rowKeys t).Nodup → (rowKeys (applyRows t rows)).Nodup := by
  intro rows
  induction rows with
  | nil => exact fun t h => h
  | cons r rest ih => exact fun t h => ih _ (keys_insertOrReplace_nodup h)

/-- Claim C2: the bulk upsert is idempotent — a second application of
the same entry batch to the resulting store leaves it unchanged (same
rows, so same row count and field values); it preserves uniqueness of
the identifier column; and a write replaces the row with the same
identifier in full (the new row is stored and is the only row with
that identifier). -/
theorem claim_C2 :
    (∀ (t t' : List Row) (es : List Entry),
       upsert_time_entries t es = some t' → upsert_time_entries t' es = some t') ∧
    (∀ (t t' : List Row) (es : List Entry),
       upsert_time_entries t es = some t' → (rowKeys t).Nodup → (rowKeys t').Nodup) ∧
    (∀ (t : List Row) (r : Row),
       r ∈ insertOrReplace t r ∧ ∀ x ∈ insertOrReplace t r, x.id = r.id → x = r) := by
  refine ⟨?_, ?_, ?_⟩
  · intro t t' es h
    unfold upsert_time_entries at h ⊢
    cases hm : es.mapM toRow with
    | none => rw [hm] at h; simp at h
    | some rows =>
        rw [hm] at h
        simp only [Option.map_some'] at h ⊢
        injection h with h
        rw [← h, applyRows_idem]
  · intro t t' es h hnd
    unfold upsert_time_entries at h
    cases hm : es.mapM toRow with
    | none => rw [hm] at h; simp at h
    | some rows =>
        rw [hm] at h
        simp only [Option.map_some'] at h
        injection h with h
        rw [← h]
        exact rowKeys_applyRows_nodup rows t hnd
  · intro t r
    constructor
    · exact List.mem_append_right _ (List.mem_singleton_self r)
    · intro x hx hid
      rcases List.mem_append.mp hx with hx | hx
      · rcases List.mem_filter.mp hx with ⟨-, hq⟩
        exact absurd hid (of_decide_eq_true hq)
      · exact List.mem_singleton.mp hx

/-- Claim C2 witness: upserting the two demo entries a second time
into the store they produced returns that store unchanged. -/
theorem claim_C2_witness :
    upsert_time_entries demoTable [demoEntryA, demoEntryB] = some demoTable :=
  claim_C2.1 [] demoTable [demoEntryA, demoEntryB] rfl

/-! ### Claim C8 -/

theorem syncBlock_zero : syncBlock 0 = [] := rfl

theorem syncYearFrac_nonneg (n i : Nat) : 0 ≤ syncYearFrac n i := by
  unfold syncYearFrac
  have : (0:ℚ) ≤ (i : ℚ) / (n : ℚ) := div_nonneg (by positivity) (by positivity)
  linarith

theorem syncYearFrac_le (n i : Nat) (hi : i < n) : syncYearFrac n i + 4/100 ≤ 1 := by
  unfold syncYearFrac
  have hn : (0:ℚ) < n := by exact_mod_cast Nat.lt_of_le_of_lt (Nat.zero_le i) hi
  have h1 : (i:ℚ) / n ≤ 1 := (div_le_one hn).mpr (by exact_mod_cast hi.le)
  linarith

/-- The inter-year step of the progress fraction: the next year's base
fraction is at least the previous year's final fraction exactly when
`0.9 / n ≥ 0.04`, i.e. when the range has at most 22 years. -/
theorem syncYearFrac_step (n j : Nat) (hn : n ≤ 22) (hpos : 0 < n) :
    syncYearFrac n j + 4/100 ≤ syncYearFrac n (j + 1) := by
  unfold syncYearFrac
  have hnq : (0:ℚ) < n := by exact_mod_cast hpos
  have hcast : ((j + 1 : Nat) : ℚ) = (j : ℚ) + 1 := by push_cast; ring
  rw [hcast, add_div, mul_add]
  have hstep : (4:ℚ)/100 ≤ 9/10 * (1 / n) := by
    rw [mul_one_div, le_div_iff₀ hnq]
    have : (n:ℚ) ≤ 22 := by exact_mod_cast hn
    linarith
  linarith

theorem syncBlock_mem (n : Nat) {x : ℚ} (hx : x ∈ syncBlock n) :
    ∃ i, i < n ∧ (x = syncYearFrac n i ∨ x = syncYearFrac n i + 4/100) := by
  unfold syncBlock at hx
  rcases List.mem_flatMap.mp hx with ⟨i, hi, hmem⟩
  refine ⟨i, List.mem_range.mp hi, ?_⟩
  rcases List.mem_cons.mp hmem with h | h
  · exact Or.inl h
  · rcases List.mem_cons.mp h with h | h
    · exact Or.inr h
    · exact absurd h (List.not_mem_nil x)

theorem syncBlock_getLast (n : Nat) (hpos : 0 < n) :
    (syncBlock n).getLast? = some (syncYearFrac n (n - 1) + 4/100) := by
  obtain ⟨m, rfl⟩ : ∃ m, n = m + 1 := ⟨n - 1, by omega⟩
  unfold syncBlock
  rw [List.range_succ, List.flatMap_append, List.getLast?_append]
  rfl

theorem syncBlock_head (n : Nat) (hpos : 0 < n) :
    (syncBlock n).head? = some (syncYearFrac n 0) := by
  obtain ⟨m, rfl⟩ : ∃ m, n = m + 1 := ⟨n - 1, by omega⟩
  unfold syncBlock
  rw [List.range_succ_eq_map, List.flatMap_cons]
  rfl

theorem syncBlock_chain (n : Nat) (hn : n ≤ 22) :
    List.Chain' (· ≤ ·) (syncBlock n) := by
  suffices h : ∀ k, k ≤ n →
      List.Chain' (· ≤ ·) ((List.range k).flatMap fun i =>
        [syncYearFrac n i, syncYearFrac n i + 4/100]) by
    exact h n le_rfl
  intro k
  induction k with
  | zero => intro _; simp
  | succ k ih =>
      intro hk
      rw [List.range_succ, List.flatMap_append, List.chain'_append]
      refine ⟨ih (by omega), ?_, ?_⟩
      · simp only [List.flatMap_cons, List.flatMap_nil, List.append_nil]
        rw [List.chain'_cons]
        exact ⟨by linarith, List.chain'_singleton _⟩
      · intro x hx y hy
        simp only [List.flatMap_cons, List.flatMap_nil, List.append_nil] at hy
        cases k with
        | zero => simp at hx
        | succ j =>
            have hlast : ((List.range (j + 1)).flatMap fun i =>
                [syncYearFrac n i, syncYearFrac n i + 4/100]).getLast? =
                some (syncYearFrac n j + 4/100) := by
              rw [List.range_succ, List.flatMap_append, List.getLast?_append]
              rfl
            rw [hlast] at hx
            simp only [Option.mem_def, Option.some.injEq] at hx
            have hhead : syncYearFrac n (j + 1) = y := by
              simpa using hy
            rw [← hx, ← hhead]
            exact syncYearFrac_step n j hn (by omega)

/-- Claim C8 (amended): every reported fraction lies in `[0,1]` and the
final report is exactly 1.0, for full syncs over any year range and
for incremental syncs; the fraction sequence is monotonically
non-decreasing for incremental syncs and for full syncs over at most
22 years, but not in general (`claim_C8_counterexample`: a 23-year
range decreases between the first year's completion report and the
second year's base report). -/
theorem claim_C8 :
    (∀ (n : Nat) (x : ℚ), x ∈ syncAllFracs n → 0 ≤ x ∧ x ≤ 1) ∧
    (∀ n : Nat, (syncAllFracs n).getLast? = some 1) ∧
    (∀ n : Nat, n ≤ 22 → List.Chain' (· ≤ ·) (syncAllFracs n)) ∧
    (∀ x ∈ syncCurrentFracs, 0 ≤ x ∧ x ≤ 1) ∧
    syncCurrentFracs.getLast? = some 1 ∧
    List.Chain' (· ≤ ·) syncCurrentFracs := by
  refine ⟨?_, ?_, ?_, ?_, rfl, ?_⟩
  · intro n x hx
    unfold syncAllFracs at hx
    rcases List.mem_append.mp hx with hx | hx
    · rcases List.mem_append.mp hx with hx | hx
      · fin_cases hx <;> norm_num
      · rcases syncBlock_mem n hx with ⟨i, hi, h | h⟩
        · have h1 := syncYearFrac_nonneg n i
          have h2 := syncYearFrac_le n i hi
          constructor <;> [linarith; linarith]
        · have h1 := syncYearFrac_nonneg n i
          have h2 := syncYearFrac_le n i hi
          constructor <;> [linarith; linarith]
    · fin_cases hx <;> norm_num
  · intro n
    unfold syncAllFracs
    rw [List.getLast?_append]
    rfl
  · intro n hn
    unfold syncAllFracs
    rw [List.chain'_append, List.chain'_append]
    refine ⟨⟨?_, syncBlock_chain n hn, ?_⟩, ?_, ?_⟩
    · norm_num [List.chain'_cons]
    · intro x hx y hy
      simp only [List.getLast?_cons_cons, List.getLast?_singleton] at hx
      simp only [Option.mem_def, Option.some.injEq] at hx
      cases hpos : n with
      | zero => rw [hpos] at hy; simp [syncBlock_zero] at hy
      | succ m =>
          rw [hpos, syncBlock_head (m + 1) (by omega)] at hy
          have hy' : syncYearFrac (m + 1) 0 = y := by simpa using hy
          rw [← hx, ← hy']
          unfold syncYearFrac
          norm_num
    · norm_num [List.chain'_cons]
    · intro x hx y hy
      have hy1 : (1:ℚ) = y := by simpa using hy
      rw [List.getLast?_append] at hx
      cases hpos : n with
      | zero =>
          rw [hpos] at hx
          rw [show syncBlock 0 = [] from rfl] at hx
          simp only [List.getLast?_nil, Option.none_or] at hx
          have hx' : (6:ℚ)/100 = x := by
            simpa [List.getLast?_cons_cons, List.getLast?_singleton] using hx
          rw [← hx', ← hy1]
          norm_num
      | succ m =>
          rw [hpos, syncBlock_getLast (m + 1) (by omega)] at hx
          have hx' : syncYearFrac (m + 1) m + 4/100 = x := by
            have := Option.mem_def.mp hx
            exact Option.some.inj this
          rw [← hx', ← hy1]
          exact syncYearFrac_le (m + 1) m (by omega)
  · intro x hx
    fin_cases hx <;> norm_num
  · norm_num [syncCurrentFracs, List.chain'_cons]

/-- Claim C8 witness: the default-range full sync (10 years,
2017..2026) reports a monotone sequence, and a concrete reported
fraction lies in `[0,1]`. -/
theorem claim_C8_witness :
    List.Chain' (· ≤ ·) (syncAllFracs 10) ∧ (0 ≤ (2:ℚ)/100 ∧ (2:ℚ)/100 ≤ 1) :=
  ⟨claim_C8.2.2.1 10 (by omega),
   claim_C8.1 10 (2/100) (by
    unfold syncAllFracs
    exact List.mem_append_left _ (List.mem_append_left _
      (List.mem_cons_of_mem _ (List.mem_cons_self _ _))))⟩

/-- Claim C8 counterexample: over a 23-year range the fraction
sequence is not monotone — the report after the first year (0.10)
exceeds the second year's base fraction (0.06 + 0.9/23 ≈ 0.0991). -/
theorem claim_C8_counterexample : List.Chain' (· ≤ ·) (syncAllFracs 23) = False := by
  refine eq_false ?_
  intro h
  unfold syncAllFracs at h
  rcases List.chain'_append.mp h with ⟨h1, -, -⟩
  rcases List.chain'_append.mp h1 with ⟨-, hB, -⟩
  have hshape : syncBlock 23 =
      syncYearFrac 23 0 :: (syncYearFrac 23 0 + 4/100) :: syncYearFrac 23 1 ::
        (syncYearFrac 23 1 + 4/100) :: ((syncBlock 23).drop 4) := rfl
  rw [hshape] at hB
  rw [List.chain'_cons, List.chain'_cons] at hB
  have hbad := hB.2.1
  unfold syncYearFrac at hbad
  norm_num at hbad

/-! ### Claim C9 -/

/-- Each `wait_if_needed` call returns no earlier than `min_interval`
after the previously recorded request: the first sleep enforces the
spacing and the quota sleep (nonnegative whenever `max_per_hour ≥ 1`)
can only delay further. -/
theorem filtered_headD_gt (maxH : Nat) (hmax : 1 ≤ maxH) (cutoff : ℚ) (stamps : List ℚ)
    (h : maxH ≤ (stamps.filter fun t => decide (cutoff < t)).length) :
    cutoff < (stamps.filter fun t => decide (cutoff < t)).headD 0 := by
  cases hfsc : stamps.filter fun t => decide (cutoff < t) with
  | nil => rw [hfsc] at h; simp at h; omega
  | cons a l =>
      have ha : a ∈ stamps.filter fun t => decide (cutoff < t) :=
        hfsc ▸ List.mem_cons_self a l
      have hca : cutoff < a := of_decide_eq_true (List.mem_filter.mp ha).2
      simpa [List.headD_cons] using hca

theorem wait_record_ge (maxH : Nat) (ι : ℚ) (st : LimState) (now : ℚ) (hmax : 1 ≤ maxH) :
    st.lastRequest + ι ≤ (wait_if_needed maxH ι st now).1 := by
  unfold wait_if_needed
  dsimp only
  split_ifs with h1 h2 h3
  · have hh := filtered_headD_gt maxH hmax
      (now + (ι - (now - st.lastRequest)) - 3600) st.timestamps h2
    linarith
  · linarith
  · have hh := filtered_headD_gt maxH hmax (now + 0 - 3600) st.timestamps h3
    have hι : ι ≤ now - st.lastRequest := not_lt.mp h1
    linarith
  · have hι : ι ≤ now - st.lastRequest := not_lt.mp h1
    linarith

theorem runAcquires_chain (maxH : Nat) (ι : ℚ) (hmax : 1 ≤ maxH) :
    ∀ (delays : List ℚ) (st : LimState) (now : ℚ),
      List.Chain' (fun a b => a + ι ≤ b) (runAcquires maxH ι st now delays) := by
  intro delays
  induction delays with
  | nil => intro st now; simp [runAcquires]
  | cons d ds ih =>
      intro st now
      rw [runAcquires]
      rw [List.chain'_cons']
      refine ⟨?_, ih _ _⟩
      intro y hy
      cases ds with
      | nil => simp [runAcquires] at hy
      | cons d' ds' =>
          rw [runAcquires] at hy
          have hy' : (wait_if_needed maxH ι (wait_if_needed maxH ι st (now + d)).2
              ((wait_if_needed maxH ι st (now + d)).1 + d')).1 = y := by
            simpa using hy
          rw [← hy']
          have hlast : (wait_if_needed maxH ι st (now + d)).2.lastRequest =
              (wait_if_needed maxH ι st (now + d)).1 := rfl
          have := wait_record_ge maxH ι (wait_if_needed maxH ι st (now + d)).2
            ((wait_if_needed maxH ι st (now + d)).1 + d') hmax
          rw [hlast] at this
          exact this

/-- A chain with step at least `ι` spans at least `length × ι` from
head to last. -/
theorem chain_head_last_bound (ι : ℚ) :
    ∀ (l : List ℚ) (x y : ℚ), List.Chain' (fun a b => a + ι ≤ b) (x :: l) →
      (x :: l).getLast? = some y → x + (l.length : ℚ) * ι ≤ y := by
  intro l
  induction l with
  | nil =>
      intro x y _ hlast
      have hxy : x = y := by simpa using hlast
      simp [hxy]
  | cons z l' ih =>
      intro x y hch hlast
      rw [List.chain'_cons] at hch
      have h1 : x + ι ≤ z := hch.1
      have h2 := ih z y hch.2 (by simpa using hlast)
      simp only [List.length_cons]
      push_cast
      push_cast at h2
      nlinarith [h1, h2]

/-- Claim C9: over any run of consecutive acquire calls (each call
arriving no earlier than the previous one returned), the recorded
request times are spaced at least `min_interval` apart, so the N-th
call completes at least `(N-1) × min_interval` after the first — the
spacing is enforced unconditionally before every recorded request. -/
theorem claim_C9 : ∀ (maxPerHour : Nat) (minInterval : ℚ) (st : LimState) (start : ℚ)
    (delays : List ℚ) (res : List ℚ),
    1 ≤ maxPerHour → (∀ d ∈ delays, 0 ≤ d) →
    res = runAcquires maxPerHour minInterval st start delays →
    List.Chain' (fun a b => a + minInterval ≤ b) res ∧
    (∀ x y, res.head? = some x → res.getLast? = some y →
      x + ((res.length - 1 : Nat) : ℚ) * minInterval ≤ y) := by
  intro maxH ι st start delays res hmax _hdel hres
  subst hres
  refine ⟨runAcquires_chain maxH ι hmax delays st start, ?_⟩
  intro x y hx hy
  cases hr : runAcquires maxH ι st start delays with
  | nil => rw [hr] at hx; simp at hx
  | cons a l =>
      rw [hr] at hx hy
      have hax : a = x := by simpa using hx
      subst hax
      have hch : List.Chain' (fun a b => a + ι ≤ b) (a :: l) :=
        hr ▸ runAcquires_chain maxH ι hmax delays st start
      have hlen : (a :: l).length - 1 = l.length := by simp
      rw [hlen]
      exact chain_head_last_bound ι l a y hch hy

/-- Claim C9 witness: three back-to-back acquires on a fresh limiter
with the source constants (30/h, 1.1 s) produce 1.1-second-spaced
records. -/
theorem claim_C9_witness :
    List.Chain' (fun a b => a + (11/10 : ℚ) ≤ b)
      (runAcquires 30 (11/10) ⟨0, []⟩ 100 [0, 0, 0]) :=
  (claim_C9 30 (11/10) ⟨0, []⟩ 100 [0, 0, 0]
    (runAcquires 30 (11/10) ⟨0, []⟩ 100 [0, 0, 0])
    (by omega) (by intro d hd; fin_cases hd <;> norm_num) rfl).1

end TogglApi
